import Mathlib

/-!
Verification development for redy-badger: a Redis-protocol server storing
Bloom and Cuckoo filter blobs in a Badger key-value store.

The definitions below are a shallow embedding of the repository's Go code
(main.go and badger.go) together with the parts of its pinned filter
libraries (bits-and-blooms/bloom/v3 v3.7.0, bits-and-blooms/bitset v1.10.0,
seiflotfy/cuckoofilter @a2f2c23f1771) that the command handlers exercise.
Byte strings are `List Nat` (each entry a byte value), machine words are
`Nat` reduced modulo 2^64 where the code casts, and the member-hashing of
the filter engines is abstracted by explicit location-function parameters,
since only the engines' state-update and serialization logic (not the hash
mixing) decides the properties checked here.
-/

namespace RedyBadger

/-- Big-endian fixed-width byte encoding of a natural number: `toBytesBE j n`
is the `j`-byte big-endian encoding of `n % 256^j`, as written by Go's
`binary.Write(stream, binary.BigEndian, uint64(n))` when `j = 8`. -/
def toBytesBE : Nat → Nat → List Nat
  | 0, _ => []
  | j + 1, n => toBytesBE j (n / 256) ++ [n % 256]

/-- Little-endian fixed-width byte encoding, as written by
`binary.Write(stream, binary.LittleEndian, x)` for an 8-byte `x`. -/
def toBytesLE : Nat → Nat → List Nat
  | 0, _ => []
  | j + 1, n => n % 256 :: toBytesLE j (n / 256)

/-- Value of a big-endian byte string. -/
def beVal (bs : List Nat) : Nat := bs.foldl (fun a b => a * 256 + b) 0

/-- Value of a little-endian byte string. -/
def leVal (bs : List Nat) : Nat := bs.foldr (fun b a => a * 256 + b) 0

/-- Read one big-endian uint64 from the front of a byte stream, failing (as
`binary.Read` does with an EOF error) when fewer than 8 bytes remain. -/
def readBE8 (bs : List Nat) : Option (Nat × List Nat) :=
  if 8 ≤ bs.length then some (beVal (bs.take 8), bs.drop 8) else none

/-- bits-and-blooms/bitset: a bit array with a bit length and the backing
64-bit words, mirroring the Go struct fields `length` and `set`. -/
structure BitSet where
  length : Nat
  set : List Nat
deriving DecidableEq, Repr

/-- bitset `wordsNeeded`: number of 64-bit words backing `len` bits. -/
def wordsNeeded (len : Nat) : Nat := (len + 63) / 64

/-- bitset `Test`: `b.set[i>>6] & (1 << (i&63)) != 0`, and `false` whenever
`i >= b.length`. -/
def bitsetTest (b : BitSet) (i : Nat) : Bool :=
  if b.length ≤ i then false
  else (b.set.getD (i / 64) 0) / 2 ^ (i % 64) % 2 = 1

/-- bitset `extendSet`: grow the word slice to `wordsNeeded (i+1)` (new words
are zero) and bump the bit length to `i + 1`. -/
def bitsetExtend (b : BitSet) (i : Nat) : BitSet :=
  ⟨i + 1, b.set ++ List.replicate (wordsNeeded (i + 1) - b.set.length) 0⟩

/-- bitset `Set`: extend when `i >= length`, then `b.set[i>>6] |= 1 << (i&63)`. -/
def bitsetSetBit (b : BitSet) (i : Nat) : BitSet :=
  let b' := if b.length ≤ i then bitsetExtend b i else b
  { b' with set := b'.set.set (i / 64) ((b'.set.getD (i / 64) 0) ||| 2 ^ (i % 64)) }

/-- bitset `WriteTo`: the bit length as a big-endian uint64 followed by each
backing word as a big-endian uint64. -/
def bitsetWriteTo (b : BitSet) : List Nat :=
  toBytesBE 8 b.length ++ (b.set.map (toBytesBE 8)).flatten

/-- Read `j` big-endian uint64 words from the front of a byte stream. -/
def readWords : Nat → List Nat → Option (List Nat × List Nat)
  | 0, bs => some ([], bs)
  | j + 1, bs =>
    match readBE8 bs with
    | none => none
    | some (w, rest) =>
      match readWords j rest with
      | none => none
      | some (ws, rest') => some (w :: ws, rest')

/-- bitset `ReadFrom`: read the bit length, then exactly `wordsNeeded length`
words; the receiver is replaced by the freshly read bit set. -/
def bitsetReadFrom (bs : List Nat) : Option (BitSet × List Nat) :=
  match readBE8 bs with
  | none => none
  | some (len, rest) =>
    match readWords (wordsNeeded len) rest with
    | none => none
    | some (ws, rest') => some (⟨len, ws⟩, rest')

/-- bits-and-blooms/bloom v3: bit count `m`, hash count `k`, and the bit
array `b`, mirroring the Go struct fields. -/
structure BloomFilter where
  m : Nat
  k : Nat
  b : BitSet
deriving DecidableEq, Repr

/-- bloom `WriteTo`: `m` and `k` as big-endian uint64, then the bit set. -/
def bloomWriteTo (f : BloomFilter) : List Nat :=
  toBytesBE 8 f.m ++ toBytesBE 8 f.k ++ bitsetWriteTo f.b

/-- bloom `ReadFrom` (`readBloomFilter`): read `m`, `k` and the bit set; the
receiver filter is replaced wholesale (`*f = *f2`), so whatever filter the
caller constructed beforehand is discarded. Trailing bytes are left unread. -/
def bloomReadFrom (bs : List Nat) : Option BloomFilter :=
  match readBE8 bs with
  | none => none
  | some (m, r1) =>
    match readBE8 r1 with
    | none => none
    | some (k, r2) =>
      match bitsetReadFrom r2 with
      | none => none
      | some (b, _) => some ⟨m, k, b⟩

/-- bloom `Test`: every one of the `k` hash locations (the raw location of
hash index `i` is abstracted as `hash i`, reduced modulo `m` exactly as the
library's `location` does) is set in the bit array. -/
def bloomTest (f : BloomFilter) (hash : Nat → Nat) : Bool :=
  (List.range f.k).all (fun i => bitsetTest f.b (hash i % f.m))

/-- bloom `TestOrAdd` (v3.7.0): walk the `k` hash locations in order; any
location whose bit is unset marks the member as not previously present and
gets its bit set. Returns the result of the membership test taken BEFORE the
bits were added, paired with the updated filter. -/
def bloomTestOrAdd (f : BloomFilter) (hash : Nat → Nat) : Bool × BloomFilter :=
  (List.range f.k).foldl
    (fun acc i =>
      let l := hash i % f.m
      if bitsetTest acc.2.b l then acc
      else (false, { acc.2 with b := bitsetSetBit acc.2.b l }))
    (true, f)

/-- IEEE-754 double bit pattern of 0.01, the default Bloom error rate; the
codec only ever serializes the float64 field, so the 64-bit pattern is a
faithful representation of it. -/
def float001bits : Nat := 0x3F847AE147AE147B

/-- bloomToBytes from main.go: `binary.Write(&blob, binary.LittleEndian,
capacity)` is invoked with a Go `uint`, which encoding/binary rejects as a
non-fixed-size type; the returned error is discarded and NO capacity bytes
are written. The float64 error rate (represented by its bit pattern
`errBits`) is then written as 8 little-endian bytes, followed by the
filter's own `WriteTo` serialization, which cannot fail into a
`bytes.Buffer`. -/
def bloomToBytes (f : BloomFilter) (capacity errBits : Nat) : List Nat :=
  let _ := capacity
  toBytesLE 8 errBits ++ bloomWriteTo f

/-- bloomFromBytes from main.go: `binary.Read` into `*uint` fails for the
same non-fixed-size reason before consuming any input, and the error is
discarded, so `capacity` keeps its zero value. The float64 read consumes 8
bytes when available (on a shorter stream it consumes everything and its
discarded error leaves `errorRate` zero, after which `ReadFrom` fails on
the empty remainder). The `NewWithEstimates` filter built from
`(capacity, errorRate)` is replaced wholesale by `ReadFrom`. -/
def bloomFromBytes (blob : List Nat) : Option (BloomFilter × Nat × Nat) :=
  let capacity := 0
  let errBits := if 8 ≤ blob.length then leVal (blob.take 8) else 0
  match bloomReadFrom (blob.drop 8) with
  | none => none
  | some f => some (f, capacity, errBits)

/-- seiflotfy/cuckoofilter: a slice of 4-fingerprint buckets (a fingerprint
is a single byte, 0 meaning empty), the item count, and the cached
`bucketPow`, mirroring the Go struct fields. -/
structure CuckooFilter where
  buckets : List (List Nat)
  count : Nat
  bucketPow : Nat
deriving DecidableEq, Repr

/-- `bits.TrailingZeros` for a 64-bit word: index of the lowest set bit, 64
when the word is zero. -/
def trailZeros (n : Nat) : Nat :=
  ((List.range 64).find? (fun i => n / 2 ^ i % 2 = 1)).getD 64

/-- cuckoofilter `getNextPow2`: smallest power of two that is at least `n`
(the Go bit-smearing computes this for `1 ≤ n < 2^63`; `n = 0` wraps around
to 0). -/
def nextPow2 (n : Nat) : Nat :=
  if n = 0 then 0
  else if n = 1 then 1
  else 2 ^ (Nat.log2 (n - 1) + 1)

/-- cuckoofilter `NewFilter`: bucket count is `getNextPow2 capacity /
bucketSize` with a floor of 1; all buckets start empty. -/
def cuckooNewFilter (capacity : Nat) : CuckooFilter :=
  let nb := nextPow2 capacity / 4
  let nb := if nb = 0 then 1 else nb
  ⟨List.replicate nb (List.replicate 4 0), 0, trailZeros nb⟩

/-- cuckoofilter `Encode`: the fingerprint bytes of every bucket in order
(`bytes[i*4+j] = byte(buckets[i][j])`). -/
def cuckooEncode (f : CuckooFilter) : List Nat :=
  f.buckets.flatten

/-- Split a byte string whose length is a multiple of 4 into buckets of 4. -/
def chunk4 : List Nat → List (List Nat)
  | a :: b :: c :: d :: rest => [a, b, c, d] :: chunk4 rest
  | _ => []

/-- cuckoofilter `Decode` (at the go.mod-pinned commit): reject byte strings
whose length is not a multiple of bucketSize = 4, otherwise rebuild the
bucket slice byte-for-byte, counting the nonzero fingerprints; there is no
emptiness check, so the empty byte string decodes to a filter with zero
buckets and count 0. -/
def cuckooDecode (bytes : List Nat) : Option CuckooFilter :=
  if bytes.length % 4 ≠ 0 then none
  else some ⟨chunk4 bytes, (bytes.filter (fun x => x ≠ 0)).length,
    trailZeros (bytes.length / 4)⟩

/-- Error classes surfaced by the facade and handlers: wrong argument count
or malformed option token (redeo `WrongNumberOfArgs`), numeric parse
failure, Badger `ErrKeyNotFound`, the facade's `ErrKeyExists`, a blob that
the filter codec rejects, and BfInsert's distinct "unsupported number of
arguments" message. -/
inductive ErrKind where
  | wrongArgs
  | parseErr
  | notFound
  | keyExists
  | decodeErr
  | unsupportedArgs
deriving DecidableEq, Repr

/-- One protocol-level append made by a handler: `AppendOK`, `AppendInt`,
`AppendArrayLen`, or `AppendError`. -/
inductive Reply where
  | ok
  | int (n : Int)
  | arrayLen (n : Nat)
  | err (e : ErrKind)
deriving DecidableEq, Repr

/-- The Badger store contents, as an association list from keys to byte
string values (first binding wins). -/
abbrev Store := List (String × List Nat)

/-- Point lookup in the store. -/
def storeGet : Store → String → Option (List Nat)
  | [], _ => none
  | e :: rest, k => if e.1 = k then some e.2 else storeGet rest k

/-- Point write in the store (overwrite or append). -/
def storeSet : Store → String → List Nat → Store
  | [], k, v => [(k, v)]
  | e :: rest, k, v => if e.1 = k then (k, v) :: rest else e :: storeSet rest k v

/-- Badger `txn.Get` as used inside an update transaction: on success the
item and no error; on failure no item alongside the error — either the key
is absent (`ErrKeyNotFound`) or the read itself faulted, which is modelled
by the `fault` parameter carrying an arbitrary error message. -/
def txnGetItem (s : Store) (k : String) (fault : Option String) :
    Option (List Nat) × Option String :=
  match fault with
  | some e => (none, some e)
  | none =>
    match storeGet s k with
    | some v => (some v, none)
    | none => (none, some "Key not found")

/-- InsertExclusive from badger.go: inside one update transaction, read the
key and classify ONLY by whether an item came back (the read's error value
is discarded with `_`); any item at all aborts with `ErrKeyExists` (the
transaction commits nothing), otherwise `txn.Set` writes the value and the
transaction commits. -/
def InsertExclusive (s : Store) (k : String) (v : List Nat)
    (fault : Option String) : Except ErrKind Unit × Store :=
  match (txnGetItem s k fault).1 with
  | some _ => (Except.error ErrKind.keyExists, s)
  | none => (Except.ok (), storeSet s k v)

/-- Get from badger.go: point read in a read-only transaction, returning a
copy of the value or the `ErrKeyNotFound` error for an absent key. -/
def Get (s : Store) (k : String) : Except ErrKind (List Nat) :=
  match storeGet s k with
  | some v => Except.ok v
  | none => Except.error ErrKind.notFound

/-- UpdateFunc from badger.go: read the key (propagating the read error and
aborting when it is absent), run the mutate closure on the value via
`item.Value`, DISCARD both the closure's error (the return value of
`item.Value` is ignored) and write the closure's result with `txn.Set`;
the transaction then commits and the caller sees no error. -/
def UpdateFunc (s : Store) (k : String)
    (fn : List Nat → List Nat × Option ErrKind) : Except ErrKind Unit × Store :=
  match storeGet s k with
  | none => (Except.error ErrKind.notFound, s)
  | some v =>
    let r := fn v
    (Except.ok (), storeSet s k r.1)

/-- strconv.ParseUint(s, 10, 32): non-empty decimal digit strings whose
value fits in 32 bits; anything else (signs, other characters, overflow)
is a parse error. -/
def parseUint32 (str : String) : Option Nat :=
  let cs := str.toList
  if cs = [] then none
  else if cs.all (fun c => c.isDigit) then
    let v := cs.foldl (fun a c => a * 10 + (c.toNat - 48)) 0
    if v < 4294967296 then some v else none
  else none

/-- The empty string, the value `c.Arg(i).String()` yields past the end. -/
def blankStr : String := ""

/-- `c.Arg(i).String()` for a command whose arguments are `args`. -/
def argStr (args : List String) (i : Nat) : String := args.getD i blankStr

/-- The lowercase capacity option token accepted by the insert handlers. -/
def capLower : String := "capacity"

/-- The uppercase capacity option token accepted by the insert handlers. -/
def capUpper : String := "CAPACITY"

/-- The lowercase error-rate option token accepted by BfInsert. -/
def errLower : String := "error"

/-- The uppercase error-rate option token accepted by BfInsert. -/
def errUpper : String := "ERROR"

/-- The 5- and 6-argument arm of BfInsert's switch (case 6 falls through to
case 5, so the trailing ITEMS token is never examined). The first
`strconv.ParseUint` of Arg 2 happens textually before the capacity-token
check, but its error is only examined after the second, identical
`ParseUint`, so the observable order is: capacity token check, numeric
parse, error token check (the re-check of `err` at line 121 can never
fire), float parse. -/
def bfInsertP5 (pf : String → Option Nat) (args : List String) :
    Sum Reply (Nat × Nat) :=
  if argStr args 1 ≠ capLower ∧ argStr args 1 ≠ capUpper then
    Sum.inl (Reply.err ErrKind.wrongArgs)
  else
    match parseUint32 (argStr args 2) with
    | none => Sum.inl (Reply.err ErrKind.parseErr)
    | some c =>
      if argStr args 3 ≠ errLower ∧ argStr args 3 ≠ errUpper then
        Sum.inl (Reply.err ErrKind.wrongArgs)
      else
        match pf (argStr args 4) with
        | none => Sum.inl (Reply.err ErrKind.parseErr)
        | some fb => Sum.inr (c, fb)

/-- BfInsert's `switch c.ArgN()`: either an early error reply (`Sum.inl`,
the branch returns), or capacity and error-rate bits to proceed with,
together with the replies already appended on the way (`Sum.inr`): the
default branch for 7 or more arguments appends its error reply WITHOUT
returning, leaving capacity and error rate at their zero values.
`pf` abstracts `strconv.ParseFloat(·, 32)` as the bit pattern of the
parsed float. -/
def bfInsertParams (pf : String → Option Nat) (args : List String) :
    Sum Reply (Nat × Nat × List Reply) :=
  match args.length with
  | 1 => Sum.inr (1000000, float001bits, [])
  | 2 => Sum.inl (Reply.err ErrKind.wrongArgs)
  | 3 =>
    if argStr args 1 ≠ capLower ∧ argStr args 1 ≠ capUpper then
      Sum.inl (Reply.err ErrKind.wrongArgs)
    else
      match parseUint32 (argStr args 2) with
      | none => Sum.inl (Reply.err ErrKind.parseErr)
      | some c => Sum.inr (c, 0, [])
  | 4 => Sum.inl (Reply.err ErrKind.wrongArgs)
  | 5 =>
    match bfInsertP5 pf args with
    | Sum.inl r => Sum.inl r
    | Sum.inr (c, fb) => Sum.inr (c, fb, [])
  | 6 =>
    match bfInsertP5 pf args with
    | Sum.inl r => Sum.inl r
    | Sum.inr (c, fb) => Sum.inr (c, fb, [])
  | 0 => Sum.inl (Reply.err ErrKind.wrongArgs)
  | _ => Sum.inr (0, 0, [Reply.err ErrKind.unsupportedArgs])

/-- RedisServer.BfInsert: validate the argument count, resolve capacity and
error rate (see `bfInsertParams`; the replies it already appended stay in
the output), build a fresh filter (`mk` abstracts `bloom.NewWithEstimates`,
whose floating-point sizing the replies never depend on), serialize it, and
create the key exclusively, replying with a one-element array holding
integer 1 on success. -/
def bfInsert (pf : String → Option Nat) (mk : Nat → Nat → BloomFilter)
    (s : Store) (args : List String) : List Reply × Store :=
  if args.length < 1 then ([Reply.err ErrKind.wrongArgs], s)
  else
    match bfInsertParams pf args with
    | Sum.inl r => ([r], s)
    | Sum.inr (capacity, errBits, pre) =>
      let blob := bloomToBytes (mk capacity errBits) capacity errBits
      match InsertExclusive s (argStr args 0) blob none with
      | (Except.error e, s') => (pre ++ [Reply.err e], s')
      | (Except.ok _, s') => (pre ++ [Reply.arrayLen 1, Reply.int 1], s')

/-- RedisServer.BfAdd: exactly 2 arguments; one read-modify-write through
UpdateFunc whose closure decodes the blob, calls `TestOrAdd` on the member
(abstracted by its hash locations `hash`) into the captured `added`
variable, and re-encodes; the reply is integer 1 when `added` is true and 0
otherwise, and `added` keeps its zero value `false` when the closure bails
out before the `TestOrAdd` call or never runs. -/
def bfAdd (hash : Nat → Nat) (s : Store) (args : List String) :
    List Reply × Store :=
  if args.length ≠ 2 then ([Reply.err ErrKind.wrongArgs], s)
  else
    let key := argStr args 0
    let added :=
      match storeGet s key with
      | some v =>
        match bloomFromBytes v with
        | some (f, _, _) => (bloomTestOrAdd f hash).1
        | none => false
      | none => false
    let fn : List Nat → List Nat × Option ErrKind := fun v =>
      match bloomFromBytes v with
      | none => ([], some ErrKind.decodeErr)
      | some (f, cap, eb) => (bloomToBytes (bloomTestOrAdd f hash).2 cap eb, none)
    match UpdateFunc s key fn with
    | (Except.error e, s') => ([Reply.err e], s')
    | (Except.ok _, s') => ([Reply.int (if added then 1 else 0)], s')

/-- RedisServer.BfCard: exactly 1 argument; `value, err := Get(...)` but the
read error is immediately shadowed by the decode's error, so a failed read
just leaves `value` nil; the decoded filter's `ApproximatedSize`
(floating-point, abstracted by `apx`) is the integer reply. -/
def bfCard (apx : BloomFilter → Int) (s : Store) (args : List String) :
    List Reply :=
  if args.length ≠ 1 then [Reply.err ErrKind.wrongArgs]
  else
    let value :=
      match Get s (argStr args 0) with
      | Except.ok v => v
      | Except.error _ => []
    match bloomFromBytes value with
    | none => [Reply.err ErrKind.decodeErr]
    | some (f, _, _) => [Reply.int (apx f)]

/-- RedisServer.BfExists: exactly 2 arguments; the read error IS checked
here, then the blob is decoded and the member (abstracted by `hash`)
tested, replying 1 or 0. -/
def bfExists (hash : Nat → Nat) (s : Store) (args : List String) :
    List Reply :=
  if args.length ≠ 2 then [Reply.err ErrKind.wrongArgs]
  else
    match Get s (argStr args 0) with
    | Except.error e => [Reply.err e]
    | Except.ok v =>
      match bloomFromBytes v with
      | none => [Reply.err ErrKind.decodeErr]
      | some (f, _, _) => if bloomTest f hash then [Reply.int 1] else [Reply.int 0]

/-- CfInsert's `switch c.ArgN()` (the count is already confined to 1..3):
either an early error reply or the capacity to proceed with. -/
def cfInsertParams (args : List String) : Sum Reply Nat :=
  match args.length with
  | 1 => Sum.inr 1000000
  | 2 => Sum.inl (Reply.err ErrKind.wrongArgs)
  | 3 =>
    if argStr args 1 ≠ capLower ∧ argStr args 1 ≠ capUpper then
      Sum.inl (Reply.err ErrKind.wrongArgs)
    else
      match parseUint32 (argStr args 2) with
      | none => Sum.inl (Reply.err ErrKind.parseErr)
      | some c => Sum.inr c
  | _ => Sum.inl (Reply.err ErrKind.wrongArgs)

/-- RedisServer.CfInsert: between 1 and 3 arguments; build a fresh cuckoo
filter, encode it, create the key exclusively, and reply OK. -/
def cfInsert (s : Store) (args : List String) : List Reply × Store :=
  if args.length < 1 ∨ args.length > 3 then ([Reply.err ErrKind.wrongArgs], s)
  else
    match cfInsertParams args with
    | Sum.inl r => ([r], s)
    | Sum.inr capacity =>
      match InsertExclusive s (argStr args 0) (cuckooEncode (cuckooNewFilter capacity)) none with
      | (Except.error e, s') => ([Reply.err e], s')
      | (Except.ok _, s') => ([Reply.ok], s')

/-- RedisServer.CfAdd: exactly 2 arguments; one read-modify-write through
UpdateFunc whose closure decodes the blob, calls `InsertUnique` (abstracted
by `ins`, returning whether the member was inserted plus the updated
filter) into the captured `added`, and re-encodes; `added` keeps its zero
value `false` when the closure bails out early or never runs. -/
def cfAdd (ins : CuckooFilter → Bool × CuckooFilter) (s : Store)
    (args : List String) : List Reply × Store :=
  if args.length ≠ 2 then ([Reply.err ErrKind.wrongArgs], s)
  else
    let key := argStr args 0
    let added :=
      match storeGet s key with
      | some v =>
        match cuckooDecode v with
        | some f => (ins f).1
        | none => false
      | none => false
    let fn : List Nat → List Nat × Option ErrKind := fun v =>
      match cuckooDecode v with
      | none => ([], some ErrKind.decodeErr)
      | some f => (cuckooEncode (ins f).2, none)
    match UpdateFunc s key fn with
    | (Except.error e, s') => ([Reply.err e], s')
    | (Except.ok _, s') => ([Reply.int (if added then 1 else 0)], s')

/-- RedisServer.CfCard: exactly 1 argument; `value, err := Get(...)` but the
read error is immediately shadowed by `cuckoo.Decode`'s error, so a failed
read just leaves `value` nil, and the decoded filter's `Count` is the
integer reply. -/
def cfCard (s : Store) (args : List String) : List Reply :=
  if args.length ≠ 1 then [Reply.err ErrKind.wrongArgs]
  else
    let value :=
      match Get s (argStr args 0) with
      | Except.ok v => v
      | Except.error _ => []
    match cuckooDecode value with
    | none => [Reply.err ErrKind.decodeErr]
    | some f => [Reply.int (Int.ofNat f.count)]

/-- RedisServer.CfExists: exactly 2 arguments; the read error IS checked,
then the blob is decoded and the member looked up (abstracted by `lk`),
replying 1 or 0. -/
def cfExists (lk : CuckooFilter → Bool) (s : Store) (args : List String) :
    List Reply :=
  if args.length ≠ 2 then [Reply.err ErrKind.wrongArgs]
  else
    match Get s (argStr args 0) with
    | Except.error e => [Reply.err e]
    | Except.ok v =>
      match cuckooDecode v with
      | none => [Reply.err ErrKind.decodeErr]
      | some f => if lk f then [Reply.int 1] else [Reply.int 0]

/-- The complete set of command names registered on the redeo server inside
`run()` (`srv.Handle` and `srv.HandleFunc` calls), in registration order. -/
def handledCommands : List String :=
  ["ping", "echo", "info",
   "bf.insert", "bf.add", "bf.card", "bf.exists",
   "cf.insert", "cf.add", "cf.card", "cf.exists",
   "del", "set", "mset", "get", "mget", "keys"]

end RedyBadger

namespace RedyBadger

/-- A freshly created small Bloom filter: 64 bits, 2 hash functions, no bit
set — the state any just-inserted Bloom record is in. -/
def fFresh : BloomFilter := ⟨64, 2, ⟨64, [0]⟩⟩

/-- Concrete hash-location assignment for one member: hash index `i` maps to
raw location `i`. -/
def hashId : Nat → Nat := fun i => i

/-- Concrete key under which the Bloom record is stored. -/
def kBloom : String := "bloom"

/-- Concrete member argument (from the repository's own test data). -/
def mPhone : String := "+13164647972"

/-- The stored blob of `fFresh` created with capacity 50000 and the default
error rate. -/
def blobFresh : List Nat := bloomToBytes fFresh 50000 float001bits

/-- A store holding exactly the freshly created Bloom record. -/
def sBloom : Store := [(kBloom, blobFresh)]

/-- Concrete key for generic store scenarios. -/
def kA : String := "k"

/-- Concrete filler argument string. -/
def sX : String := "x"

/-- Concrete numeric capacity argument. -/
def n50 : String := "50"

/-- The mixed-case capacity option token the spec says is accepted. -/
def tokMixed : String := "Capacity"

/-- A BF.INSERT argument list with 7 arguments, hitting the switch's default
branch. -/
def argsSeven : List String := [kA, sX, sX, sX, sX, sX, sX]

/-- A float-parse stand-in that always fails (never reached in the scenarios
that use it). -/
def pfNone : String → Option Nat := fun _ => none

/-- A float-parse stand-in that parses everything to the zero pattern. -/
def pfZero : String → Option Nat := fun _ => some 0

/-- A NewWithEstimates stand-in returning the fixed small filter. -/
def mkConst : Nat → Nat → BloomFilter := fun _ _ => fFresh

/-- A one-key store holding a plain one-byte value. -/
def sK7 : Store := [(kA, [7])]

/-- A mutate function that fails while producing result value [2]. -/
def fnC3 : List Nat → List Nat × Option ErrKind :=
  fun _ => ([2], some ErrKind.decodeErr)

/-- A mutate function that fails while producing result value [9]. -/
def fnC9 : List Nat → List Nat × Option ErrKind :=
  fun _ => ([9], some ErrKind.parseErr)

/-- Values looked up in a store just written to that key are the value just
written (used to relate UpdateFunc and InsertExclusive results to reads). -/
theorem storeGet_storeSet_self (s : Store) (k : String) (v : List Nat) :
    storeGet (storeSet s k v) k = some v := by
  induction s with
  | nil => simp [storeGet, storeSet]
  | cons e rest ih =>
    by_cases h : e.1 = k
    · simp [storeGet, storeSet, h]
    · simp [storeGet, storeSet, h, ih]

/-- Decoding the empty blob as a Bloom record fails (ReadFrom hits EOF). -/
theorem bloomFromBytes_nil : bloomFromBytes [] = none := rfl

/-- Decoding the empty blob as a Cuckoo record SUCCEEDS with an empty filter
(length 0 is a multiple of 4 and there is no emptiness check). -/
theorem cuckooDecode_nil : cuckooDecode [] = some ⟨[], 0, 64⟩ := rfl

end RedyBadger

namespace RedyBadger

/-- C1: BF.ADD on a stored fresh Bloom record and a member that is NOT yet
present replies integer 0, even though the member is newly added by the call
(membership test false before, true after): the handler maps bloom
`TestOrAdd`'s return — the pre-add membership test — to the 0/1 reply, so it
reports 1 exactly when the member was already (possibly) present, the
inverse of the claimed meaning. -/
theorem bfAdd_replies_zero_for_newly_added_member :
    (bfAdd hashId sBloom [kBloom, mPhone]).1 = [Reply.int 0] ∧
    bloomTest fFresh hashId = false ∧
    bloomTest (bloomTestOrAdd fFresh hashId).2 hashId = true :=
  ⟨rfl, rfl, rfl⟩

/-- C2: the Bloom blob round trip restores the filter state and the error
rate bits exactly, but the capacity comes back as 0 instead of the 50000 it
was encoded with: encoding/binary rejects the Go `uint` capacity field and
both the write and the read error are discarded, so no capacity bytes ever
reach the blob. -/
theorem bloom_codec_drops_capacity :
    bloomFromBytes (bloomToBytes fFresh 50000 float001bits) =
      some (fFresh, 0, float001bits) ∧ (0 : Nat) ≠ 50000 :=
  ⟨rfl, by decide⟩

/-- C3: when the mutate closure handed to UpdateFunc fails on a present key,
UpdateFunc discards the error (the return value of item.Value is ignored),
writes the closure's result value as the key's new stored value, commits,
and reports success to its caller. -/
theorem updateFunc_swallows_mutate_error (s : Store) (k : String)
    (v r : List Nat) (e : ErrKind) (fn : List Nat → List Nat × Option ErrKind)
    (hp : storeGet s k = some v) (hf : fn v = (r, some e)) :
    UpdateFunc s k fn = (Except.ok (), storeSet s k r) ∧
    storeGet (UpdateFunc s k fn).2 k = some r := by
  have h1 : UpdateFunc s k fn = (Except.ok (), storeSet s k r) := by
    unfold UpdateFunc
    rw [hp]
    show (Except.ok (), storeSet s k (fn v).1) = _
    rw [hf]
  exact ⟨h1, by rw [h1]; exact storeGet_storeSet_self s k r⟩

/-- C3 witness: a store holding one byte under key `kA` and a mutate
function that fails with a decode error while producing [2]. -/
theorem updateFunc_swallows_mutate_error_witness :
    UpdateFunc sK7 kA fnC3 = (Except.ok (), storeSet sK7 kA [2]) ∧
    storeGet (UpdateFunc sK7 kA fnC3).2 kA = some [2] :=
  updateFunc_swallows_mutate_error sK7 kA [7] [2] ErrKind.decodeErr fnC3 rfl rfl

/-- C4 counterexample: CF.CARD on a key absent from the store replies with
integer 0, not an error reply: the store-read error is shadowed, the nil
value is handed to cuckoo Decode, which accepts the empty blob as an
empty filter of count 0. -/
theorem cfCard_absent_key_replies_zero :
    cfCard [] [kA] = [Reply.int 0] ∧ storeGet [] kA = none :=
  ⟨rfl, rfl⟩

/-- C4 amended: on an absent key, BF.ADD, BF.EXISTS, CF.ADD and CF.EXISTS
reply with the store's not-found error; BF.CARD discards the read error but
still replies with an error because the empty value fails Bloom decoding;
CF.CARD discards the read error and replies integer 0, treating the absent
key as an empty filter. -/
theorem absent_key_replies (s : Store) (key mem : String) (hash : Nat → Nat)
    (ins : CuckooFilter → Bool × CuckooFilter) (lk : CuckooFilter → Bool)
    (apx : BloomFilter → Int) (h : storeGet s key = none) :
    (bfAdd hash s [key, mem]).1 = [Reply.err ErrKind.notFound] ∧
    bfExists hash s [key, mem] = [Reply.err ErrKind.notFound] ∧
    bfCard apx s [key] = [Reply.err ErrKind.decodeErr] ∧
    (cfAdd ins s [key, mem]).1 = [Reply.err ErrKind.notFound] ∧
    cfExists lk s [key, mem] = [Reply.err ErrKind.notFound] ∧
    cfCard s [key] = [Reply.int 0] := by
  refine ⟨?_, ?_, ?_, ?_, ?_, ?_⟩
  · simp [bfAdd, UpdateFunc, argStr, h]
  · simp [bfExists, Get, argStr, h]
  · simp [bfCard, Get, argStr, h, bloomFromBytes_nil]
  · simp [cfAdd, UpdateFunc, argStr, h]
  · simp [cfExists, Get, argStr, h]
  · simp [cfCard, Get, argStr, h, cuckooDecode_nil]

/-- C4 witness: the empty store, with concrete stand-ins for the abstracted
filter-engine operations. -/
theorem absent_key_replies_witness :
    (bfAdd hashId [] [kA, sX]).1 = [Reply.err ErrKind.notFound] ∧
    bfExists hashId [] [kA, sX] = [Reply.err ErrKind.notFound] ∧
    bfCard (fun _ => 0) [] [kA] = [Reply.err ErrKind.decodeErr] ∧
    (cfAdd (fun f => (false, f)) [] [kA, sX]).1 = [Reply.err ErrKind.notFound] ∧
    cfExists (fun _ => false) [] [kA, sX] = [Reply.err ErrKind.notFound] ∧
    cfCard [] [kA] = [Reply.int 0] :=
  absent_key_replies [] kA sX hashId (fun f => (false, f)) (fun _ => false)
    (fun _ => 0) rfl

/-- C5: after a first InsertExclusive succeeds on a previously absent key, a
second InsertExclusive with a different value fails with KeyExists, leaves
the store unchanged, and a read still returns the first value. -/
theorem insertExclusive_second_call_fails (s : Store) (k : String)
    (v1 v2 : List Nat) (h : storeGet s k = none) (hne : v1 ≠ v2) :
    (InsertExclusive s k v1 none).1 = Except.ok () ∧
    (InsertExclusive (InsertExclusive s k v1 none).2 k v2 none).1 =
      Except.error ErrKind.keyExists ∧
    (InsertExclusive (InsertExclusive s k v1 none).2 k v2 none).2 =
      (InsertExclusive s k v1 none).2 ∧
    storeGet (InsertExclusive (InsertExclusive s k v1 none).2 k v2 none).2 k =
      some v1 := by
  have h1 : InsertExclusive s k v1 none = (Except.ok (), storeSet s k v1) := by
    simp [InsertExclusive, txnGetItem, h]
  have h2 : storeGet (storeSet s k v1) k = some v1 :=
    storeGet_storeSet_self s k v1
  have h3 : InsertExclusive (storeSet s k v1) k v2 none =
      (Except.error ErrKind.keyExists, storeSet s k v1) := by
    simp [InsertExclusive, txnGetItem, h2]
  rw [h1]
  simp [h3, h2]

/-- C5 witness: empty store, a zero-length first value and a different
second value. -/
theorem insertExclusive_second_call_fails_witness :
    (InsertExclusive ([] : Store) kA [] none).1 = Except.ok () ∧
    (InsertExclusive (InsertExclusive ([] : Store) kA [] none).2 kA [0] none).1 =
      Except.error ErrKind.keyExists ∧
    (InsertExclusive (InsertExclusive ([] : Store) kA [] none).2 kA [0] none).2 =
      (InsertExclusive ([] : Store) kA [] none).2 ∧
    storeGet
      (InsertExclusive (InsertExclusive ([] : Store) kA [] none).2 kA [0] none).2
      kA = some [] :=
  insertExclusive_second_call_fails [] kA [] [0] rfl (by decide)

/-- C6: BF.INSERT with seven arguments emits an error reply from the
switch's default branch and then — the branch does not return — continues
to create the filter and emits a second, success reply, so the handler does
not emit exactly one reply; this holds for every float-parse and
filter-construction behavior. -/
theorem bfInsert_seven_args_two_replies (pf : String → Option Nat)
    (mk : Nat → Nat → BloomFilter) :
    (bfInsert pf mk [] argsSeven).1 =
      [Reply.err ErrKind.unsupportedArgs, Reply.arrayLen 1, Reply.int 1] :=
  rfl

/-- C7: the dispatcher registers no handler at all under the command name
"cf.del" (while it does register the other cuckoo commands), so there is no
CF.DEL command of any argument count. -/
theorem cfDel_not_registered :
    ("cf.del" ∉ handledCommands) ∧ ("cf.add" ∈ handledCommands) ∧
    ("cf.card" ∈ handledCommands) := by
  decide

/-- C8 counterexample: BF.INSERT with the mixed-case option token "Capacity"
is rejected with a wrong-number-of-arguments error, while the same command
with "capacity" is accepted — the token is not matched case-insensitively. -/
theorem bfInsert_mixed_case_token_rejected :
    (bfInsert pfNone mkConst [] [kA, tokMixed, n50]).1 =
      [Reply.err ErrKind.wrongArgs] ∧
    (bfInsert pfNone mkConst [] [kA, capLower, n50]).1 =
      [Reply.arrayLen 1, Reply.int 1] :=
  ⟨rfl, rfl⟩

/-- C8 amended: the CAPACITY and ERROR option tokens of BF.INSERT and
CF.INSERT are accepted exactly in their all-lowercase or all-uppercase
spellings; every other casing is rejected with a wrong-number-of-arguments
error reply. -/
theorem insert_option_tokens_exact_case (pf : String → Option Nat)
    (mk : Nat → Nat → BloomFilter) (s : Store) (key tok tokE nArg eArg : String)
    (c fb : Nat) (hn : parseUint32 nArg = some c) (hk : storeGet s key = none)
    (he : pf eArg = some fb) :
    ((tok = capLower ∨ tok = capUpper) →
      (bfInsert pf mk s [key, tok, nArg]).1 = [Reply.arrayLen 1, Reply.int 1] ∧
      (cfInsert s [key, tok, nArg]).1 = [Reply.ok]) ∧
    (tok ≠ capLower → tok ≠ capUpper →
      (bfInsert pf mk s [key, tok, nArg]).1 = [Reply.err ErrKind.wrongArgs] ∧
      (cfInsert s [key, tok, nArg]).1 = [Reply.err ErrKind.wrongArgs]) ∧
    ((tokE = errLower ∨ tokE = errUpper) →
      (bfInsert pf mk s [key, capLower, nArg, tokE, eArg]).1 =
        [Reply.arrayLen 1, Reply.int 1]) ∧
    (tokE ≠ errLower → tokE ≠ errUpper →
      (bfInsert pf mk s [key, capLower, nArg, tokE, eArg]).1 =
        [Reply.err ErrKind.wrongArgs]) := by
  refine ⟨?_, ?_, ?_, ?_⟩
  · rintro (rfl | rfl) <;>
      constructor <;>
      simp [bfInsert, bfInsertParams, cfInsert, cfInsertParams, argStr, hn,
        InsertExclusive, txnGetItem, hk]
  · intro h1 h2
    constructor <;>
      simp [bfInsert, bfInsertParams, cfInsert, cfInsertParams, argStr, h1, h2]
  · rintro (rfl | rfl) <;>
      simp [bfInsert, bfInsertParams, bfInsertP5, argStr, hn, he,
        InsertExclusive, txnGetItem, hk]
  · intro h1 h2
    simp [bfInsert, bfInsertParams, bfInsertP5, argStr, hn, h1, h2]

/-- C8 amended witness: empty store, numeric argument "50", a float-parse
stand-in that succeeds, lowercase tokens. -/
theorem insert_option_tokens_exact_case_witness :
    (bfInsert pfZero mkConst [] [kA, capLower, n50]).1 =
      [Reply.arrayLen 1, Reply.int 1] ∧
    (cfInsert [] [kA, capLower, n50]).1 = [Reply.ok] :=
  (insert_option_tokens_exact_case pfZero mkConst [] kA capLower errLower n50
    sX 50 0 (by decide) rfl rfl).1 (Or.inl rfl)

/-- C9: when the mutate function handed to UpdateFunc reports an error on a
present key, the facade still proceeds to write the mutate function's
result value rather than skipping the write. -/
theorem updateFunc_attempts_write_on_mutate_error (s : Store) (k : String)
    (v : List Nat) (e : ErrKind) (fn : List Nat → List Nat × Option ErrKind)
    (hp : storeGet s k = some v) (he : (fn v).2 = some e) :
    (UpdateFunc s k fn).2 = storeSet s k (fn v).1 := by
  unfold UpdateFunc
  rw [hp]

/-- C9 witness: one-key store and a mutate function failing with a parse
error while producing [9]. -/
theorem updateFunc_attempts_write_on_mutate_error_witness :
    (UpdateFunc sK7 kA fnC9).2 = storeSet sK7 kA (fnC9 [7]).1 :=
  updateFunc_attempts_write_on_mutate_error sK7 kA [7] ErrKind.parseErr fnC9
    rfl rfl

/-- C10: InsertExclusive classifies its exclusivity-check read only by
whether an item came back; when the read fails with ANY error (the fault
message is arbitrary), no item is returned, the error is discarded, and
InsertExclusive proceeds to write as if the key were absent — even when the
key is in fact present. -/
theorem insertExclusive_faulty_read_overwrites (s : Store) (k : String)
    (v w : List Nat) (e : String) (hp : storeGet s k = some w) :
    (txnGetItem s k (some e)).1 = none ∧
    InsertExclusive s k v (some e) = (Except.ok (), storeSet s k v) :=
  ⟨rfl, rfl⟩

/-- C10 witness: a store where `kA` is present with value [7], a faulted
read, and a new value [1] that overwrites it. -/
theorem insertExclusive_faulty_read_overwrites_witness :
    (txnGetItem sK7 kA (some sX)).1 = none ∧
    InsertExclusive sK7 kA [1] (some sX) = (Except.ok (), storeSet sK7 kA [1]) :=
  insertExclusive_faulty_read_overwrites sK7 kA [1] [7] sX rfl

end RedyBadger
